import Mathlib

/-!
# Verification of the subtitle-studio content-addressed result cache

Shallow embedding of the `Cache` subsystem of the subtitle-studio repository
(`src-tauri/src/cache/mod.rs`) together with the project/segment data model
(`src-tauri/src/project/model.rs`, `src-tauri/src/types.rs`) and the command
helpers the claims touch (`commands/project.rs`, `commands/files.rs`,
`commands/ai.rs`).

Modelling conventions:
* The filesystem is a map `String → Option FileData` from file names to
  structured file contents; `FileData.invalid` stands for on-disk bytes that
  do not deserialize as the expected JSON shape.
* `f64` time values are modelled as `Rat`: every claim about them concerns
  only the algebraic relation between stored fields (`duration = end - start`),
  which is preserved by this abstraction.
* `chrono` timestamps are modelled as integer seconds; `to_rfc3339` renders
  the integer in decimal and `parse_from_rfc3339` parses it back, keeping the
  two properties the code relies on: rendering then parsing round-trips, and
  arbitrary strings can fail to parse.  `Duration::num_days`/`num_minutes`
  truncate toward zero exactly as chrono's `i64` division does (`Int.tdiv`).
* Fallible `fs::write` is modelled by an explicit `writeOk : Bool` flag on the
  operations that write; `fs::read_to_string` on an existing file is assumed
  to succeed (no claim concerns read-level I/O failure).
-/

/-! ## Decimal rendering and parsing of integers

`chrono::Utc::now().to_rfc3339()` / `DateTime::parse_from_rfc3339` are
abstracted to decimal rendering/parsing of integer seconds; the SHA-256
preimage of `generate_translation_cache_key` also needs a verified injective
rendering of the numeric fields serde_json emits.  The rendering uses explicit
fuel so that it reduces in the kernel.
-/

def digitChar (d : Nat) : Char := Char.ofNat (48 + d)

def digitVal (c : Char) : Nat := c.toNat - 48

def isDigitC (c : Char) : Bool := 48 ≤ c.toNat && c.toNat ≤ 57

def natDigitsAux : Nat → Nat → List Char
  | 0, _ => []
  | fuel + 1, n =>
    if n < 10 then [digitChar n]
    else natDigitsAux fuel (n / 10) ++ [digitChar (n % 10)]

/-- Decimal digits of a natural number, most significant first. -/
def natDigits (n : Nat) : List Char := natDigitsAux (n + 1) n

/-- The fuel is irrelevant as long as it exceeds the argument. -/
theorem natDigitsAux_eq (n : Nat) : ∀ f1 f2, n < f1 → n < f2 →
    natDigitsAux f1 n = natDigitsAux f2 n := by
  induction n using Nat.strong_induction_on with
  | _ n ih =>
    intro f1 f2 h1 h2
    match f1, f2, h1, h2 with
    | a + 1, b + 1, h1, h2 =>
      by_cases h10 : n < 10
      · simp [natDigitsAux, h10]
      · have hdiv : n / 10 < n := Nat.div_lt_self (by omega) (by omega)
        simp only [natDigitsAux, if_neg h10]
        rw [ih (n / 10) hdiv a b (by omega) (by omega)]

theorem natDigitsAux_eq_natDigits (fuel n : Nat) (h : n < fuel) :
    natDigitsAux fuel n = natDigits n :=
  natDigitsAux_eq n fuel (n + 1) h (Nat.lt_succ_self n)

theorem natDigits_ge_ten (n : Nat) (h : ¬ n < 10) :
    natDigits n = natDigits (n / 10) ++ [digitChar (n % 10)] := by
  have hdiv : n / 10 < n := Nat.div_lt_self (by omega) (by omega)
  conv_lhs => unfold natDigits natDigitsAux
  rw [if_neg h, natDigitsAux_eq_natDigits n (n / 10) (by omega)]

theorem natDigits_lt_ten (n : Nat) (h : n < 10) : natDigits n = [digitChar n] := by
  unfold natDigits natDigitsAux
  rw [if_pos h]

theorem digitChar_isDigit (d : Nat) (h : d < 10) : isDigitC (digitChar d) = true := by
  interval_cases d <;> decide

theorem digitVal_digitChar (d : Nat) (h : d < 10) : digitVal (digitChar d) = d := by
  interval_cases d <;> decide

theorem natDigits_all_digits (n : Nat) : ∀ c ∈ natDigits n, isDigitC c = true := by
  induction n using Nat.strong_induction_on with
  | _ n ih =>
    by_cases h10 : n < 10
    · rw [natDigits_lt_ten n h10]
      intro c hc
      rw [List.mem_singleton] at hc
      subst hc
      exact digitChar_isDigit n h10
    · rw [natDigits_ge_ten n h10]
      intro c hc
      rcases List.mem_append.mp hc with h | h
      · exact ih (n / 10) (Nat.div_lt_self (by omega) (by omega)) c h
      · rw [List.mem_singleton] at h
        subst h
        exact digitChar_isDigit (n % 10) (Nat.mod_lt n (by omega))

theorem natDigits_ne_nil (n : Nat) : natDigits n ≠ [] := by
  by_cases h10 : n < 10
  · rw [natDigits_lt_ten n h10]; simp
  · rw [natDigits_ge_ten n h10]; simp

/-- Value of a digit string, most significant first. -/
def digitsToNat (ds : List Char) : Nat := ds.foldl (fun a c => a * 10 + digitVal c) 0

theorem digitsToNat_natDigits (n : Nat) : digitsToNat (natDigits n) = n := by
  suffices h : ∀ m a, List.foldl (fun a c => a * 10 + digitVal c) a (natDigits m)
      = a * 10 ^ (natDigits m).length + m by
    have := h n 0
    simpa [digitsToNat] using this
  intro m
  induction m using Nat.strong_induction_on with
  | _ m ih =>
    intro a
    by_cases h10 : m < 10
    · rw [natDigits_lt_ten m h10]
      simp [List.foldl, digitVal_digitChar m h10]
    · rw [natDigits_ge_ten m h10]
      rw [List.foldl_append, ih (m / 10) (Nat.div_lt_self (by omega) (by omega)) a]
      simp only [List.foldl, List.length_append, List.length_singleton]
      rw [digitVal_digitChar (m % 10) (Nat.mod_lt m (by omega))]
      rw [pow_succ]
      have := Nat.div_add_mod m 10
      ring_nf
      omega

/-- `r` does not begin with a decimal digit. -/
def noDigitHead (r : List Char) : Prop :=
  match r with
  | [] => True
  | c :: _ => isDigitC c = false

theorem takeWhile_digits (A r : List Char) (hA : ∀ c ∈ A, isDigitC c = true)
    (hr : noDigitHead r) : (A ++ r).takeWhile isDigitC = A := by
  induction A with
  | nil =>
    simp only [List.nil_append]
    cases r with
    | nil => simp
    | cons c t =>
      simp only [noDigitHead] at hr
      simp [List.takeWhile, hr]
  | cons c A ih =>
    have hc := hA c (by simp)
    rw [List.cons_append, List.takeWhile_cons_of_pos hc]
    rw [ih (fun x hx => hA x (by simp [hx]))]

/-- Maximal-munch decimal parser: consumes a nonempty digit run. -/
def parseNat (input : List Char) : Option (Nat × List Char) :=
  let ds := input.takeWhile isDigitC
  if ds.isEmpty then none
  else some (digitsToNat ds, input.drop ds.length)

theorem parseNat_natDigits (n : Nat) (r : List Char) (hr : noDigitHead r) :
    parseNat (natDigits n ++ r) = some (n, r) := by
  unfold parseNat
  rw [takeWhile_digits (natDigits n) r (natDigits_all_digits n) hr]
  rw [if_neg (by simpa [List.isEmpty_iff] using natDigits_ne_nil n)]
  rw [digitsToNat_natDigits, List.drop_left]

/-- Decimal rendering of an integer, `-` sign for negative values. -/
def intChars (n : Int) : List Char :=
  if n < 0 then '-' :: natDigits n.natAbs else natDigits n.toNat

def parseInt (input : List Char) : Option (Int × List Char) :=
  match input with
  | [] => none
  | c :: r =>
    if c = '-' then (parseNat r).map (fun p => (-(p.1 : Int), p.2))
    else (parseNat (c :: r)).map (fun p => ((p.1 : Int), p.2))

theorem intChars_head_digit (n : Int) (h : ¬ n < 0) :
    ∃ c t, intChars n = c :: t ∧ isDigitC c = true := by
  unfold intChars
  rw [if_neg h]
  rcases hd : natDigits n.toNat with _ | ⟨c, t⟩
  · exact absurd hd (natDigits_ne_nil _)
  · exact ⟨c, t, rfl, natDigits_all_digits n.toNat c (by rw [hd]; simp)⟩

theorem parseInt_intChars (n : Int) (r : List Char) (hr : noDigitHead r) :
    parseInt (intChars n ++ r) = some (n, r) := by
  by_cases hn : n < 0
  · unfold intChars
    rw [if_pos hn]
    simp only [List.cons_append, parseInt, if_pos rfl]
    rw [parseNat_natDigits n.natAbs r hr]
    have step : Option.map (fun p : Nat × List Char => (-(p.1 : Int), p.2))
        (some (n.natAbs, r)) = some (-(n.natAbs : Int), r) := rfl
    rw [step]
    have hna : (-(n.natAbs : Int)) = n := by omega
    rw [hna]
    exact if_pos trivial
  · obtain ⟨c, t, hct, hcdig⟩ := intChars_head_digit n hn
    rw [hct]
    simp only [List.cons_append, parseInt]
    rw [if_neg (by intro h; subst h; exact absurd hcdig (by decide))]
    have : (c :: t) ++ r = intChars n ++ r := by rw [hct]
    rw [List.cons_append] at this
    rw [this]
    unfold intChars
    rw [if_neg hn, parseNat_natDigits n.toNat r hr]
    have step : Option.map (fun p : Nat × List Char => ((p.1 : Int), p.2))
        (some (n.toNat, r)) = some ((n.toNat : Int), r) := rfl
    rw [step]
    have hna : ((n.toNat : Int)) = n := by omega
    rw [hna]

/-! ## Timestamps

`chrono::Utc::now()` is an integer number of seconds supplied as the `now`
parameter of each operation; `to_rfc3339` renders it, `parse_from_rfc3339`
parses a stored string back (failing on garbage), and `signed_duration_since`
is integer subtraction.  `num_days`/`num_minutes` truncate toward zero, as
chrono's `i64` divisions do.
-/

def toRfc3339 (t : Int) : String := String.mk (intChars t)

def parseRfc3339 (s : String) : Option Int :=
  match parseInt s.data with
  | some (n, []) => some n
  | _ => none

theorem parseRfc3339_toRfc3339 (t : Int) : parseRfc3339 (toRfc3339 t) = some t := by
  unfold parseRfc3339 toRfc3339
  have : (String.mk (intChars t)).data = intChars t ++ [] := by simp
  rw [this, parseInt_intChars t [] (by trivial)]

def numDays (d : Int) : Int := Int.tdiv d 86400

def numMinutes (d : Int) : Int := Int.tdiv d 60

/-! ## Data model

Mirrors `src-tauri/src/project/model.rs` and `src-tauri/src/types.rs`.
Rust's `f64` times are modelled as `Rat`; the Rust field `end` is a Lean
keyword and is modelled as `stop` (same position and meaning).
-/

structure SegmentFlags where
  overlap : Bool
  too_fast : Bool
  spelling_error : Bool
  deriving DecidableEq, Repr

structure SubtitleSegment where
  id : Nat
  start : Rat
  stop : Rat
  duration : Rat
  text : String
  translation : Option String
  flags : Option SegmentFlags
  deriving DecidableEq, Repr

structure GlossaryEntry where
  id : String
  source : String
  target : String
  description : Option String
  context : Option String
  deriving DecidableEq, Repr

structure TranslationResult where
  id : Nat
  translated_text : String
  deriving DecidableEq, Repr

inductive ProjectType where
  | Video
  | Subtitle
  | Config
  deriving DecidableEq, Repr

structure ProjectFile where
  id : String
  name : String
  file_type : ProjectType
  path : String
  duration : Option Rat
  subtitle_segments : Option (List SubtitleSegment)
  created_at : String
  updated_at : String
  deriving DecidableEq, Repr

structure Project where
  id : String
  name : String
  path : String
  target_language : String
  files : List ProjectFile
  glossary : List GlossaryEntry
  created_at : String
  updated_at : String
  deriving DecidableEq, Repr

structure RecentProject where
  path : String
  name : String
  last_opened : String
  deriving DecidableEq, Repr

structure SegmentUpdates where
  text : Option String
  translation : Option String
  start : Option Rat
  stop : Option Rat
  deriving DecidableEq, Repr

/-! ## serde_json serialization, verified injective

`Cache::generate_translation_cache_key` feeds
`serde_json::to_string(segments)`, `serde_json::to_string(glossary)`,
`target_language` and `style_prompt`, in that order, to a SHA-256 hasher.
The serialized forms are modelled character-for-character after serde_json's
output (fields in declaration order, strings quoted with `"`/`\` escaping,
`null` for `None`), except that the `f64` fields are `Rat` and are rendered
as `num/den`.  Each serializer below comes with a parser and a proof that
parsing recovers the serialized value and the unread suffix, which gives
injectivity of the full preimage in each argument.
-/

def escChar (c : Char) : List Char :=
  if c = '"' ∨ c = '\\' then ['\\', c] else [c]

def escape : List Char → List Char
  | [] => []
  | c :: cs => escChar c ++ escape cs

/-- serde_json rendering of a string: quoted and escaped. -/
def strChars (s : String) : List Char := '"' :: (escape s.data ++ ['"'])

def parseStrBody : List Char → Option (List Char × List Char)
  | [] => none
  | c :: r =>
    if c = '\\' then
      match r with
      | [] => none
      | c2 :: r2 => (parseStrBody r2).map (fun p => (c2 :: p.1, p.2))
    else if c = '"' then some ([], r)
    else (parseStrBody r).map (fun p => (c :: p.1, p.2))

def parseStr (input : List Char) : Option (String × List Char) :=
  match input with
  | [] => none
  | c :: r =>
    if c = '"' then (parseStrBody r).map (fun p => (String.mk p.1, p.2))
    else none

theorem parseStrBody_cons (c : Char) (r : List Char) :
    parseStrBody (c :: r) =
      if c = '\\' then
        (match r with
        | [] => none
        | c2 :: r2 => (parseStrBody r2).map (fun p => (c2 :: p.1, p.2)))
      else if c = '"' then some ([], r)
      else (parseStrBody r).map (fun p => (c :: p.1, p.2)) := by
  cases r <;> rfl

theorem parseStrBody_escape (l r : List Char) :
    parseStrBody (escape l ++ ('"' :: r)) = some (l, r) := by
  induction l with
  | nil =>
    show parseStrBody ('"' :: r) = some ([], r)
    rw [parseStrBody_cons, if_neg (by decide), if_pos rfl]
  | cons c cs ih =>
    by_cases hc : c = '"' ∨ c = '\\'
    · have h1 : escape (c :: cs) = '\\' :: c :: escape cs := by
        simp [escape, escChar, hc]
      rw [h1, List.cons_append, List.cons_append]
      rw [parseStrBody_cons, if_pos rfl]
      show (parseStrBody (escape cs ++ '"' :: r)).map (fun p => (c :: p.1, p.2))
        = some (c :: cs, r)
      rw [ih]
      rfl
    · have h1 : escape (c :: cs) = c :: escape cs := by
        simp [escape, escChar, hc]
      push_neg at hc
      rw [h1, List.cons_append]
      rw [parseStrBody_cons, if_neg hc.2, if_neg hc.1, ih]
      rfl

theorem parseStr_strChars (s : String) (r : List Char) :
    parseStr (strChars s ++ r) = some (s, r) := by
  unfold strChars parseStr
  simp only [List.cons_append, if_pos rfl, List.append_assoc, List.cons_append,
    List.nil_append]
  rw [parseStrBody_escape s.data r]
  simp

/-- First character of a serde_json-rendered string. -/
theorem strChars_head (s : String) : ∃ t, strChars s = '"' :: t := ⟨_, rfl⟩

def expectLit : List Char → List Char → Option (List Char)
  | [], input => some input
  | _ :: _, [] => none
  | l :: ls, c :: r => if c = l then expectLit ls r else none

theorem expectLit_append (L r : List Char) : expectLit L (L ++ r) = some r := by
  induction L with
  | nil => rfl
  | cons c ls ih => simp [expectLit, ih]

/-- A literal fails on input whose first character differs from its own. -/
theorem expectLit_ne (l : Char) (ls : List Char) (c : Char) (r : List Char)
    (h : c ≠ l) : expectLit (l :: ls) (c :: r) = none := by
  simp [expectLit, h]

def boolChars (b : Bool) : List Char :=
  if b then ['t', 'r', 'u', 'e'] else ['f', 'a', 'l', 's', 'e']

def parseBool (input : List Char) : Option (Bool × List Char) :=
  match expectLit ['t', 'r', 'u', 'e'] input with
  | some r => some (true, r)
  | none =>
    match expectLit ['f', 'a', 'l', 's', 'e'] input with
    | some r => some (false, r)
    | none => none

theorem parseBool_boolChars (b : Bool) (r : List Char) :
    parseBool (boolChars b ++ r) = some (b, r) := by
  cases b <;> rfl

def optSer (f : α → List Char) : Option α → List Char
  | none => ['n', 'u', 'l', 'l']
  | some x => f x

def parseOpt (f : List Char → Option (α × List Char)) (input : List Char) :
    Option (Option α × List Char) :=
  match expectLit ['n', 'u', 'l', 'l'] input with
  | some r => some (none, r)
  | none => (f input).map (fun p => (some p.1, p.2))

/-- Round trip for `Option` payloads whose serialized form never starts with
`'n'` (strings start with `'"'`, objects with a brace). -/
theorem parseOpt_optSer (f : α → List Char) (g : List Char → Option (α × List Char))
    (x : Option α) (r : List Char)
    (hg : ∀ y, parseOpt g (f y ++ r) = (g (f y ++ r)).map (fun p => (some p.1, p.2)))
    (hround : ∀ y, g (f y ++ r) = some (y, r)) :
    parseOpt g (optSer f x ++ r) = some (x, r) := by
  cases x with
  | none =>
    show parseOpt g (['n', 'u', 'l', 'l'] ++ r) = some (none, r)
    unfold parseOpt
    rw [expectLit_append]
  | some y =>
    show parseOpt g (f y ++ r) = some (some y, r)
    rw [hg y, hround y]
    rfl

/-- If the input starts with a character other than `'n'`, `parseOpt` defers
to the payload parser. -/
theorem parseOpt_not_null (g : List Char → Option (α × List Char)) (c : Char)
    (t : List Char) (hc : c ≠ 'n') :
    parseOpt g (c :: t) = (g (c :: t)).map (fun p => (some p.1, p.2)) := by
  unfold parseOpt
  rw [expectLit_ne 'n' _ c _ hc]

/-- serde rendering of a `Rat` (stand-in for the `f64` fields): `num/den`. -/
def ratChars (q : Rat) : List Char := intChars q.num ++ '/' :: natDigits q.den

def parseRat (input : List Char) : Option (Rat × List Char) := do
  let (n, r1) ← parseInt input
  let r2 ← expectLit ['/'] r1
  let (d, r3) ← parseNat r2
  pure (mkRat n d, r3)

theorem parseRat_ratChars (q : Rat) (r : List Char) (hr : noDigitHead r) :
    parseRat (ratChars q ++ r) = some (q, r) := by
  unfold parseRat ratChars
  rw [List.append_assoc, List.cons_append]
  rw [parseInt_intChars q.num ('/' :: (natDigits q.den ++ r)) (by exact rfl)]
  show (do
    let r2 ← expectLit ['/'] ('/' :: (natDigits q.den ++ r))
    let (d, r3) ← parseNat r2
    pure (mkRat q.num d, r3) : Option (Rat × List Char)) = some (q, r)
  have h1 : expectLit ['/'] ('/' :: (natDigits q.den ++ r))
      = some (natDigits q.den ++ r) := expectLit_append ['/'] _
  rw [h1]
  show (do
    let (d, r3) ← parseNat (natDigits q.den ++ r)
    pure (mkRat q.num d, r3) : Option (Rat × List Char)) = some (q, r)
  rw [parseNat_natDigits q.den r hr]
  show some (mkRat q.num q.den, r) = some (q, r)
  rw [Rat.mkRat_self]

theorem obind_some (x : α) (f : α → Option β) : Option.bind (some x) f = f x := rfl

theorem pfst (a : α) (b : β) : (Prod.mk a b).1 = a := rfl

theorem psnd (a : α) (b : β) : (Prod.mk a b).2 = b := rfl

/-! ### Segment serialization (serde_json field order) -/

def segLit0 : List Char := "\x7b\"id\":".data
def segLit1 : List Char := ",\"start\":".data
def segLit2 : List Char := ",\"end\":".data
def segLit3 : List Char := ",\"duration\":".data
def segLit4 : List Char := ",\"text\":".data
def segLit5 : List Char := ",\"translation\":".data
def segLit6 : List Char := ",\"flags\":".data
def flagsLit0 : List Char := "\x7b\"overlap\":".data
def flagsLit1 : List Char := ",\"too_fast\":".data
def flagsLit2 : List Char := ",\"spelling_error\":".data

def flagsChars (f : SegmentFlags) : List Char :=
  flagsLit0 ++ boolChars f.overlap ++ flagsLit1 ++ boolChars f.too_fast ++
    flagsLit2 ++ boolChars f.spelling_error ++ ['\x7d']

/-- serde_json rendering of one `SubtitleSegment` (fields in declaration
order: id, start, end, duration, text, translation, flags). -/
def serSeg (s : SubtitleSegment) : List Char :=
  segLit0 ++ natDigits s.id ++ segLit1 ++ ratChars s.start ++ segLit2 ++
    ratChars s.stop ++ segLit3 ++ ratChars s.duration ++ segLit4 ++
    strChars s.text ++ segLit5 ++ optSer strChars s.translation ++ segLit6 ++
    optSer flagsChars s.flags ++ ['\x7d']

def parseFlags (input : List Char) : Option (SegmentFlags × List Char) :=
  Option.bind (expectLit flagsLit0 input) fun r0 =>
  Option.bind (parseBool r0) fun p1 =>
  Option.bind (expectLit flagsLit1 p1.2) fun r1 =>
  Option.bind (parseBool r1) fun p2 =>
  Option.bind (expectLit flagsLit2 p2.2) fun r2 =>
  Option.bind (parseBool r2) fun p3 =>
  Option.bind (expectLit ['\x7d'] p3.2) fun r3 =>
  some (⟨p1.1, p2.1, p3.1⟩, r3)

def parseSegP1 (input : List Char) : Option ((Nat × Rat) × List Char) :=
  Option.bind (expectLit segLit0 input) fun r0 =>
  Option.bind (parseNat r0) fun p1 =>
  Option.bind (expectLit segLit1 p1.2) fun r1 =>
  Option.bind (parseRat r1) fun p2 =>
  Option.bind (expectLit segLit2 p2.2) fun r2 =>
  some ((p1.1, p2.1), r2)

def parseSegP2 (input : List Char) : Option ((Rat × Rat) × List Char) :=
  Option.bind (parseRat input) fun p3 =>
  Option.bind (expectLit segLit3 p3.2) fun r3 =>
  Option.bind (parseRat r3) fun p4 =>
  Option.bind (expectLit segLit4 p4.2) fun r4 =>
  some ((p3.1, p4.1), r4)

def parseSegP3 (input : List Char) :
    Option ((String × Option String × Option SegmentFlags) × List Char) :=
  Option.bind (parseStr input) fun p5 =>
  Option.bind (expectLit segLit5 p5.2) fun r5 =>
  Option.bind (parseOpt parseStr r5) fun p6 =>
  Option.bind (expectLit segLit6 p6.2) fun r6 =>
  Option.bind (parseOpt parseFlags r6) fun p7 =>
  Option.bind (expectLit ['\x7d'] p7.2) fun r7 =>
  some ((p5.1, p6.1, p7.1), r7)

def parseSeg (input : List Char) : Option (SubtitleSegment × List Char) :=
  Option.bind (parseSegP1 input) fun a =>
  Option.bind (parseSegP2 a.2) fun b =>
  Option.bind (parseSegP3 b.2) fun c =>
  some (⟨a.1.1, a.1.2, b.1.1, b.1.2, c.1.1, c.1.2.1, c.1.2.2⟩, c.2)

theorem parseFlags_flagsChars (f : SegmentFlags) (r : List Char) :
    parseFlags (flagsChars f ++ r) = some (f, r) := by
  simp only [flagsChars, List.append_assoc, parseFlags, expectLit_append,
    parseBool_boolChars, obind_some, pfst, psnd]

theorem parseNat_seg1 (n : Nat) (t : List Char) :
    parseNat (natDigits n ++ (segLit1 ++ t)) = some (n, segLit1 ++ t) :=
  parseNat_natDigits n _ rfl

theorem parseRat_seg2 (q : Rat) (t : List Char) :
    parseRat (ratChars q ++ (segLit2 ++ t)) = some (q, segLit2 ++ t) :=
  parseRat_ratChars q _ rfl

theorem parseRat_seg3 (q : Rat) (t : List Char) :
    parseRat (ratChars q ++ (segLit3 ++ t)) = some (q, segLit3 ++ t) :=
  parseRat_ratChars q _ rfl

theorem parseRat_seg4 (q : Rat) (t : List Char) :
    parseRat (ratChars q ++ (segLit4 ++ t)) = some (q, segLit4 ++ t) :=
  parseRat_ratChars q _ rfl

theorem parseOpt_str (x : Option String) (r : List Char) :
    parseOpt parseStr (optSer strChars x ++ r) = some (x, r) := by
  apply parseOpt_optSer
  · intro y
    obtain ⟨t, ht⟩ := strChars_head y
    rw [ht, List.cons_append]
    exact parseOpt_not_null parseStr '"' (t ++ r) (by decide)
  · intro y
    exact parseStr_strChars y r

theorem flagsChars_head (f : SegmentFlags) :
    ∃ t, flagsChars f = '\x7b' :: t := by
  refine ⟨"\"overlap\":".data ++ (boolChars f.overlap ++ flagsLit1 ++
    boolChars f.too_fast ++ flagsLit2 ++ boolChars f.spelling_error ++ ['\x7d']), ?_⟩
  simp only [flagsChars, flagsLit0, List.append_assoc]
  rfl

theorem parseOpt_flags (x : Option SegmentFlags) (r : List Char) :
    parseOpt parseFlags (optSer flagsChars x ++ r) = some (x, r) := by
  apply parseOpt_optSer
  · intro y
    obtain ⟨t, ht⟩ := flagsChars_head y
    rw [ht, List.cons_append]
    exact parseOpt_not_null parseFlags '\x7b' (t ++ r) (by decide)
  · intro y
    exact parseFlags_flagsChars y r

theorem parseSegP1_ser (n : Nat) (q : Rat) (t : List Char) :
    parseSegP1 (segLit0 ++ (natDigits n ++ (segLit1 ++ (ratChars q ++ (segLit2 ++ t)))))
      = some ((n, q), t) := by
  simp only [parseSegP1, expectLit_append, parseNat_seg1, parseRat_seg2,
    obind_some, pfst, psnd]

theorem parseSegP2_ser (q1 q2 : Rat) (t : List Char) :
    parseSegP2 (ratChars q1 ++ (segLit3 ++ (ratChars q2 ++ (segLit4 ++ t))))
      = some ((q1, q2), t) := by
  simp only [parseSegP2, expectLit_append, parseRat_seg3, parseRat_seg4,
    obind_some, pfst, psnd]

theorem parseSegP3_ser (tx : String) (tr : Option String) (fl : Option SegmentFlags)
    (t : List Char) :
    parseSegP3 (strChars tx ++ (segLit5 ++ (optSer strChars tr ++ (segLit6 ++
      (optSer flagsChars fl ++ (['\x7d'] ++ t))))))
      = some ((tx, tr, fl), t) := by
  simp only [parseSegP3, expectLit_append, parseStr_strChars, parseOpt_str,
    parseOpt_flags, obind_some, pfst, psnd]

theorem parseSeg_serSeg (s : SubtitleSegment) (r : List Char) :
    parseSeg (serSeg s ++ r) = some (s, r) := by
  simp only [serSeg, List.append_assoc, parseSeg, parseSegP1_ser, obind_some,
    pfst, psnd, parseSegP2_ser, parseSegP3_ser]

/-! ### Lists of segments -/

def serSegsTail : List SubtitleSegment → List Char
  | [] => [']']
  | s :: ss => ',' :: (serSeg s ++ serSegsTail ss)

/-- serde_json rendering of `Vec<SubtitleSegment>`. -/
def serSegs : List SubtitleSegment → List Char
  | [] => ['[', ']']
  | s :: ss => '[' :: (serSeg s ++ serSegsTail ss)

def parseSegsTail : Nat → List Char → Option (List SubtitleSegment × List Char)
  | 0, _ => none
  | _ + 1, [] => none
  | fuel + 1, c :: r =>
    if c = ']' then some ([], r)
    else if c = ',' then
      Option.bind (parseSeg r) fun p =>
      Option.bind (parseSegsTail fuel p.2) fun q =>
      some (p.1 :: q.1, q.2)
    else none

def parseSegs (input : List Char) : Option (List SubtitleSegment × List Char) :=
  match input with
  | [] => none
  | c :: rest =>
    if c = '[' then
      match rest with
      | [] => none
      | c2 :: r2 =>
        if c2 = ']' then some ([], r2)
        else
          Option.bind (parseSeg (c2 :: r2)) fun p =>
          Option.bind (parseSegsTail (p.2.length + 1) p.2) fun q =>
          some (p.1 :: q.1, q.2)
    else none

theorem serSeg_head (s : SubtitleSegment) (x : List Char) :
    serSeg s ++ x = '\x7b' :: ("\"id\":".data ++ (natDigits s.id ++ segLit1 ++
      ratChars s.start ++ segLit2 ++ ratChars s.stop ++ segLit3 ++
      ratChars s.duration ++ segLit4 ++ strChars s.text ++ segLit5 ++
      optSer strChars s.translation ++ segLit6 ++ optSer flagsChars s.flags ++
      ['\x7d'] ++ x)) := by
  simp only [serSeg, segLit0, List.append_assoc]
  rfl

theorem parseSegsTail_ser (ss : List SubtitleSegment) :
    ∀ (fuel : Nat) (r : List Char), ss.length < fuel →
    parseSegsTail fuel (serSegsTail ss ++ r) = some (ss, r) := by
  induction ss with
  | nil =>
    intro fuel r h
    match fuel, h with
    | fuel + 1, _ =>
      show parseSegsTail (fuel + 1) (']' :: r) = some ([], r)
      simp [parseSegsTail]
  | cons s ss ih =>
    intro fuel r h
    match fuel, h with
    | fuel + 1, h =>
      show parseSegsTail (fuel + 1) (',' :: ((serSeg s ++ serSegsTail ss) ++ r))
        = some (s :: ss, r)
      rw [List.append_assoc]
      simp only [parseSegsTail, if_neg (by decide : ¬ (',' : Char) = ']'), if_pos rfl]
      rw [parseSeg_serSeg, obind_some, pfst, psnd,
        ih fuel r (by simpa using Nat.lt_of_succ_lt_succ h), obind_some, pfst, psnd]
      exact if_pos trivial

theorem serSegsTail_length (ss : List SubtitleSegment) :
    ss.length < (serSegsTail ss).length + 1 := by
  induction ss with
  | nil => simp [serSegsTail]
  | cons s ss ih => simp only [serSegsTail, List.length_cons, List.length_append]; omega

theorem parseSegs_serSegs (ss : List SubtitleSegment) (r : List Char) :
    parseSegs (serSegs ss ++ r) = some (ss, r) := by
  cases ss with
  | nil =>
    show parseSegs ('[' :: ']' :: r) = some ([], r)
    simp [parseSegs]
  | cons s ss =>
    show parseSegs ('[' :: ((serSeg s ++ serSegsTail ss) ++ r)) = some (s :: ss, r)
    rw [List.append_assoc, serSeg_head]
    simp only [parseSegs, if_pos rfl, if_neg (by decide : ¬ ('\x7b' : Char) = ']')]
    rw [← serSeg_head s (serSegsTail ss ++ r), parseSeg_serSeg, obind_some, pfst, psnd]
    rw [parseSegsTail_ser ss _ r (by
      have := serSegsTail_length ss
      have hlen : (serSegsTail ss).length ≤ (serSegsTail ss ++ r).length := by
        simp [List.length_append]
      omega)]
    rw [obind_some, pfst, psnd]
    exact if_pos trivial

/-! ### Glossary entries (serde_json field order: id, source, target,
description, context) -/

def entLit0 : List Char := "\x7b\"id\":".data
def entLit1 : List Char := ",\"source\":".data
def entLit2 : List Char := ",\"target\":".data
def entLit3 : List Char := ",\"description\":".data
def entLit4 : List Char := ",\"context\":".data

/-- serde_json rendering of one `GlossaryEntry`. -/
def serEnt (e : GlossaryEntry) : List Char :=
  entLit0 ++ strChars e.id ++ entLit1 ++ strChars e.source ++ entLit2 ++
    strChars e.target ++ entLit3 ++ optSer strChars e.description ++ entLit4 ++
    optSer strChars e.context ++ ['\x7d']

def parseEntP1 (input : List Char) : Option ((String × String) × List Char) :=
  Option.bind (expectLit entLit0 input) fun r0 =>
  Option.bind (parseStr r0) fun p1 =>
  Option.bind (expectLit entLit1 p1.2) fun r1 =>
  Option.bind (parseStr r1) fun p2 =>
  Option.bind (expectLit entLit2 p2.2) fun r2 =>
  some ((p1.1, p2.1), r2)

def parseEntP2 (input : List Char) :
    Option ((String × Option String × Option String) × List Char) :=
  Option.bind (parseStr input) fun p3 =>
  Option.bind (expectLit entLit3 p3.2) fun r3 =>
  Option.bind (parseOpt parseStr r3) fun p4 =>
  Option.bind (expectLit entLit4 p4.2) fun r4 =>
  Option.bind (parseOpt parseStr r4) fun p5 =>
  Option.bind (expectLit ['\x7d'] p5.2) fun r5 =>
  some ((p3.1, p4.1, p5.1), r5)

def parseEnt (input : List Char) : Option (GlossaryEntry × List Char) :=
  Option.bind (parseEntP1 input) fun a =>
  Option.bind (parseEntP2 a.2) fun b =>
  some (⟨a.1.1, a.1.2, b.1.1, b.1.2.1, b.1.2.2⟩, b.2)

theorem parseEntP1_ser (i so : String) (t : List Char) :
    parseEntP1 (entLit0 ++ (strChars i ++ (entLit1 ++ (strChars so ++ (entLit2 ++ t)))))
      = some ((i, so), t) := by
  simp only [parseEntP1, expectLit_append, parseStr_strChars, obind_some, pfst, psnd]

theorem parseEntP2_ser (ta : String) (de co : Option String) (t : List Char) :
    parseEntP2 (strChars ta ++ (entLit3 ++ (optSer strChars de ++ (entLit4 ++
      (optSer strChars co ++ (['\x7d'] ++ t)))))) = some ((ta, de, co), t) := by
  simp only [parseEntP2, expectLit_append, parseStr_strChars, parseOpt_str,
    obind_some, pfst, psnd]

theorem parseEnt_serEnt (e : GlossaryEntry) (r : List Char) :
    parseEnt (serEnt e ++ r) = some (e, r) := by
  simp only [serEnt, List.append_assoc, parseEnt, parseEntP1_ser, obind_some,
    pfst, psnd, parseEntP2_ser]

/-! ### Lists of glossary entries -/

def serEntsTail : List GlossaryEntry → List Char
  | [] => [']']
  | e :: es => ',' :: (serEnt e ++ serEntsTail es)

/-- serde_json rendering of `Vec<GlossaryEntry>`. -/
def serEnts : List GlossaryEntry → List Char
  | [] => ['[', ']']
  | e :: es => '[' :: (serEnt e ++ serEntsTail es)

def parseEntsTail : Nat → List Char → Option (List GlossaryEntry × List Char)
  | 0, _ => none
  | _ + 1, [] => none
  | fuel + 1, c :: r =>
    if c = ']' then some ([], r)
    else if c = ',' then
      Option.bind (parseEnt r) fun p =>
      Option.bind (parseEntsTail fuel p.2) fun q =>
      some (p.1 :: q.1, q.2)
    else none

def parseEnts (input : List Char) : Option (List GlossaryEntry × List Char) :=
  match input with
  | [] => none
  | c :: rest =>
    if c = '[' then
      match rest with
      | [] => none
      | c2 :: r2 =>
        if c2 = ']' then some ([], r2)
        else
          Option.bind (parseEnt (c2 :: r2)) fun p =>
          Option.bind (parseEntsTail (p.2.length + 1) p.2) fun q =>
          some (p.1 :: q.1, q.2)
    else none

theorem serEnt_head (e : GlossaryEntry) (x : List Char) :
    serEnt e ++ x = '\x7b' :: ("\"id\":".data ++ (strChars e.id ++ entLit1 ++
      strChars e.source ++ entLit2 ++ strChars e.target ++ entLit3 ++
      optSer strChars e.description ++ entLit4 ++ optSer strChars e.context ++
      ['\x7d'] ++ x)) := by
  simp only [serEnt, entLit0, List.append_assoc]
  rfl

theorem parseEntsTail_ser (es : List GlossaryEntry) :
    ∀ (fuel : Nat) (r : List Char), es.length < fuel →
    parseEntsTail fuel (serEntsTail es ++ r) = some (es, r) := by
  induction es with
  | nil =>
    intro fuel r h
    match fuel, h with
    | fuel + 1, _ =>
      show parseEntsTail (fuel + 1) (']' :: r) = some ([], r)
      simp [parseEntsTail]
  | cons e es ih =>
    intro fuel r h
    match fuel, h with
    | fuel + 1, h =>
      show parseEntsTail (fuel + 1) (',' :: ((serEnt e ++ serEntsTail es) ++ r))
        = some (e :: es, r)
      rw [List.append_assoc]
      simp only [parseEntsTail, if_neg (by decide : ¬ (',' : Char) = ']'), if_pos rfl]
      rw [parseEnt_serEnt, obind_some, pfst, psnd,
        ih fuel r (by simpa using Nat.lt_of_succ_lt_succ h), obind_some, pfst, psnd]
      exact if_pos trivial

theorem serEntsTail_length (es : List GlossaryEntry) :
    es.length < (serEntsTail es).length + 1 := by
  induction es with
  | nil => simp [serEntsTail]
  | cons e es ih => simp only [serEntsTail, List.length_cons, List.length_append]; omega

theorem parseEnts_serEnts (es : List GlossaryEntry) (r : List Char) :
    parseEnts (serEnts es ++ r) = some (es, r) := by
  cases es with
  | nil =>
    show parseEnts ('[' :: ']' :: r) = some ([], r)
    simp [parseEnts]
  | cons e es =>
    show parseEnts ('[' :: ((serEnt e ++ serEntsTail es) ++ r)) = some (e :: es, r)
    rw [List.append_assoc, serEnt_head]
    simp only [parseEnts, if_pos rfl, if_neg (by decide : ¬ ('\x7b' : Char) = ']')]
    rw [← serEnt_head e (serEntsTail es ++ r), parseEnt_serEnt, obind_some, pfst, psnd]
    rw [parseEntsTail_ser es _ r (by
      have := serEntsTail_length es
      have hlen : (serEntsTail es).length ≤ (serEntsTail es ++ r).length := by
        simp [List.length_append]
      omega)]
    rw [obind_some, pfst, psnd]
    exact if_pos trivial

/-! ## The cache (src-tauri/src/cache/mod.rs)

`TranscriptionCacheEntry` and `TranslationCacheEntry` are the JSON envelopes
written to disk; `FileData` is the structured content of one cache file, with
`invalid` standing for bytes that deserialize as none of the three shapes.
`CacheState` holds the cache directory (`disk`) and the `memory_cache` map.
`serde_json::from_str::<T>` on a file whose content has a different shape
fails (missing fields), hence the per-shape decode functions.
-/

structure TranscriptionCacheEntry where
  file_hash : String
  segments : List SubtitleSegment
  created_at : String
  deriving DecidableEq, Repr

structure TranslationCacheEntry where
  cache_key : String
  translations : List TranslationResult
  created_at : String
  deriving DecidableEq, Repr

inductive FileData where
  | transcriptionEntry (e : TranscriptionCacheEntry)
  | translationEntry (e : TranslationCacheEntry)
  | projectDoc (p : Project)
  | invalid (raw : String)
  deriving DecidableEq, Repr

def decodeTranscriptionEntry : FileData → Option TranscriptionCacheEntry
  | FileData.transcriptionEntry e => some e
  | _ => none

def decodeTranslationEntry : FileData → Option TranslationCacheEntry
  | FileData.translationEntry e => some e
  | _ => none

def decodeProject : FileData → Option Project
  | FileData.projectDoc p => some p
  | _ => none

structure CacheState where
  disk : String → Option FileData
  memory : String → Option (List SubtitleSegment)

namespace Cache

/-- `Cache::get_transcription`: memory first (no expiry check), then the
durable file under the 30-day policy; deserialization or timestamp-parse
failure propagates as `Err` (the `?` operator in the source); expiry deletes
the file and reports a miss; a valid durable hit populates `memory_cache`. -/
def get_transcription (st : CacheState) (now : Int) (file_hash : String) :
    Except String (Option (List SubtitleSegment)) × CacheState :=
  match st.memory file_hash with
  | some segments => (Except.ok (some segments), st)
  | none =>
    let cache_file := "transcribe_" ++ file_hash ++ ".json"
    match st.disk cache_file with
    | none => (Except.ok none, st)
    | some content =>
      match decodeTranscriptionEntry content with
      | none => (Except.error "deserialization failed", st)
      | some entry =>
        match parseRfc3339 entry.created_at with
        | none => (Except.error "timestamp parse failed", st)
        | some created =>
          if numDays (now - created) > 30 then
            (Except.ok none,
             { st with disk := fun n => if n = cache_file then none else st.disk n })
          else
            (Except.ok (some entry.segments),
             { st with memory := fun h =>
                 if h = file_hash then some entry.segments else st.memory h })

/-- `Cache::set_transcription`: build the envelope with `created_at = now`,
write the file (failure propagates and nothing else happens), then insert
into `memory_cache`. -/
def set_transcription (st : CacheState) (now : Int) (writeOk : Bool)
    (file_hash : String) (segments : List SubtitleSegment) :
    Except String Unit × CacheState :=
  let cache_file := "transcribe_" ++ file_hash ++ ".json"
  let entry : TranscriptionCacheEntry := ⟨file_hash, segments, toRfc3339 now⟩
  if writeOk then
    (Except.ok (),
     { disk := fun n =>
         if n = cache_file then some (FileData.transcriptionEntry entry) else st.disk n,
       memory := fun h => if h = file_hash then some segments else st.memory h })
  else
    (Except.error "io error", st)

/-- Disk-level body of `Cache::get_translation` (the method touches only the
filesystem, never `memory_cache`). -/
def get_translation_core (disk : String → Option FileData) (now : Int)
    (cache_key : String) :
    Except String (Option (List TranslationResult)) × (String → Option FileData) :=
  let cache_file := "translate_" ++ cache_key ++ ".json"
  match disk cache_file with
  | none => (Except.ok none, disk)
  | some content =>
    match decodeTranslationEntry content with
    | none => (Except.error "deserialization failed", disk)
    | some entry =>
      match parseRfc3339 entry.created_at with
      | none => (Except.error "timestamp parse failed", disk)
      | some created =>
        if numDays (now - created) > 30 then
          (Except.ok none, fun n => if n = cache_file then none else disk n)
        else
          (Except.ok (some entry.translations), disk)

/-- `Cache::get_translation`: durable store only, 30-day policy. -/
def get_translation (st : CacheState) (now : Int) (cache_key : String) :
    Except String (Option (List TranslationResult)) × CacheState :=
  let r := get_translation_core st.disk now cache_key
  (r.1, { st with disk := r.2 })

/-- `Cache::set_translation`: write the envelope; durable store only. -/
def set_translation (st : CacheState) (now : Int) (writeOk : Bool)
    (cache_key : String) (translations : List TranslationResult) :
    Except String Unit × CacheState :=
  let cache_file := "translate_" ++ cache_key ++ ".json"
  let entry : TranslationCacheEntry := ⟨cache_key, translations, toRfc3339 now⟩
  if writeOk then
    (Except.ok (),
     { st with disk := fun n =>
         if n = cache_file then some (FileData.translationEntry entry) else st.disk n })
  else
    (Except.error "io error", st)

/-- `Cache::cache_project_structure`: writes `serde_json::to_string(project)`
itself — the bare project document, not a `{key, payload, created_at}`
envelope. -/
def cache_project_structure (st : CacheState) (writeOk : Bool)
    (project_id : String) (project : Project) : Except String Unit × CacheState :=
  let cache_file := "project_" ++ project_id ++ ".json"
  if writeOk then
    (Except.ok (),
     { st with disk := fun n =>
         if n = cache_file then some (FileData.projectDoc project) else st.disk n })
  else
    (Except.error "io error", st)

/-- `Cache::get_project_structure`: 60-minute policy judged against the
project's own `updated_at`; an expired snapshot is reported absent but the
backing file is NOT removed (no `remove_file` call in this method). -/
def get_project_structure (st : CacheState) (now : Int) (project_id : String) :
    Except String (Option Project) × CacheState :=
  let cache_file := "project_" ++ project_id ++ ".json"
  match st.disk cache_file with
  | none => (Except.ok none, st)
  | some content =>
    match decodeProject content with
    | none => (Except.error "deserialization failed", st)
    | some project =>
      match parseRfc3339 project.updated_at with
      | none => (Except.error "timestamp parse failed", st)
      | some created =>
        if numMinutes (now - created) > 60 then
          (Except.ok none, st)
        else
          (Except.ok (some project), st)

/-- Preimage fed to SHA-256 by `Cache::generate_translation_cache_key`:
serialized segments, then serialized glossary, then the target language,
then the style prompt (four `hasher.update` calls on the concatenation).
The digest is the SHA-256 of exactly these bytes. -/
def generate_translation_cache_key_preimage (segments : List SubtitleSegment)
    (glossary : List GlossaryEntry) (target_language style_prompt : String) :
    List Char :=
  serSegs segments ++ serEnts glossary ++ target_language.data ++ style_prompt.data

end Cache

/-! ## `update_subtitle_segment` (commands/project.rs)

The command loads the project, finds the FIRST file with the given id
(`iter_mut().find`), inside it the first segment with the given id, applies
the four optional updates in source order (text, translation, start, end —
each bound update recomputes `duration = end - start` with the then-current
other bound), stamps `updated_at`, saves and returns; any miss along the way
is the error `"Сегмент не найден"`.  The returned project is the one saved to
disk.
-/

def updateSegment (seg : SubtitleSegment) (updates : SegmentUpdates) : SubtitleSegment :=
  let seg1 := match updates.text with
    | some t => { seg with text := t }
    | none => seg
  let seg2 := match updates.translation with
    | some t => { seg1 with translation := some t }
    | none => seg1
  let seg3 := match updates.start with
    | some s => { seg2 with start := s, duration := seg2.stop - s }
    | none => seg2
  let seg4 := match updates.stop with
    | some e => { seg3 with stop := e, duration := e - seg3.start }
    | none => seg3
  seg4

def updateFirstSegment (segments : List SubtitleSegment) (segment_id : Nat)
    (updates : SegmentUpdates) : Option (List SubtitleSegment) :=
  match segments with
  | [] => none
  | s :: rest =>
    if s.id = segment_id then some (updateSegment s updates :: rest)
    else (updateFirstSegment rest segment_id updates).map (fun l => s :: l)

def updateFirstFile (files : List ProjectFile) (file_id : String)
    (segment_id : Nat) (updates : SegmentUpdates) (nowStr : String) :
    Option (List ProjectFile) :=
  match files with
  | [] => none
  | f :: rest =>
    if f.id = file_id then
      match f.subtitle_segments with
      | none => none
      | some segs =>
        (updateFirstSegment segs segment_id updates).map
          (fun segs2 =>
            { f with subtitle_segments := some segs2, updated_at := nowStr } :: rest)
    else (updateFirstFile rest file_id segment_id updates nowStr).map (fun l => f :: l)

def update_subtitle_segment (project : Project) (file_id : String)
    (segment_id : Nat) (updates : SegmentUpdates) (nowStr : String) :
    Except String Project :=
  match updateFirstFile project.files file_id segment_id updates nowStr with
  | some files2 => Except.ok { project with files := files2, updated_at := nowStr }
  | none => Except.error "Сегмент не найден"

/-! ## `parse_whisper_response` (commands/ai.rs)

The whisper response's `segments` array is modelled as a list of elements
carrying the three fields the parser reads; `as_f64().unwrap_or(0.0)` and
`as_str().unwrap_or("")` become `getD`.
-/

structure WhisperSegment where
  start : Option Rat
  stop : Option Rat
  text : Option String
  deriving DecidableEq, Repr

def parse_whisper_response (segments : List WhisperSegment) : List SubtitleSegment :=
  segments.enum.map (fun p =>
    let i := p.1
    let seg := p.2
    let start := seg.start.getD 0
    let stop := seg.stop.getD 0
    { id := i + 1
      start := start
      stop := stop
      duration := stop - start
      text := (seg.text.getD "").trim
      translation := none
      flags := none })

/-! ## `update_recent_projects` (commands/files.rs)

The stored `recent_projects.json` is read (a parse failure falls back to the
empty list via `unwrap_or_default`), entries with the opened path are
retained out, the new entry is inserted at the front with a fresh
`last_opened`, the list is truncated to 10 and written back.  On success the
function's result is the persisted list.
-/

inductive RecentDisk where
  | missing
  | valid (projects : List RecentProject)
  | corrupt
  deriving DecidableEq, Repr

/-- `Path::new(p).file_name().and_then(|s| s.to_str())`. -/
def fileNameOf (p : String) : Option String :=
  let comps := (p.splitOn "/").filter (fun s => s ≠ "" ∧ s ≠ ".")
  match comps.getLast? with
  | none => none
  | some last => if last = ".." then none else some last

def update_recent_projects (stored : RecentDisk) (project_path : String)
    (now : Int) (writeOk : Bool) : Except String (List RecentProject) :=
  let projects : List RecentProject :=
    match stored with
    | RecentDisk.missing => []
    | RecentDisk.valid l => l
    | RecentDisk.corrupt => []
  let projects := projects.filter (fun p => p.path ≠ project_path)
  let project_name := (fileNameOf project_path).getD "Untitled"
  let new_project : RecentProject :=
    { path := project_path, name := project_name, last_opened := toRfc3339 now }
  let projects := new_project :: projects
  let projects := projects.take 10
  if writeOk then Except.ok projects else Except.error "io error"

/-! ## String fields of a cache file's content

Used to state that a stored project snapshot records no write-time
timestamp: the serialized JSON contains exactly the string fields below
(plus numbers, booleans and fixed field names), so a timestamp string absent
from this list appears nowhere in the file.
-/

def optStrList : Option String → List String
  | none => []
  | some s => [s]

def segmentStrings (s : SubtitleSegment) : List String :=
  [s.text] ++ optStrList s.translation

def glossaryEntryStrings (e : GlossaryEntry) : List String :=
  [e.id, e.source, e.target] ++ optStrList e.description ++ optStrList e.context

def projectFileStrings (f : ProjectFile) : List String :=
  [f.id, f.name, f.path, f.created_at, f.updated_at] ++
    (match f.subtitle_segments with
     | none => []
     | some l => (l.map segmentStrings).flatten)

def projectStrings (p : Project) : List String :=
  [p.id, p.name, p.path, p.target_language, p.created_at, p.updated_at] ++
    (p.files.map projectFileStrings).flatten ++ (p.glossary.map glossaryEntryStrings).flatten

def fileDataStrings : FileData → List String
  | FileData.transcriptionEntry e =>
      [e.file_hash, e.created_at] ++ (e.segments.map segmentStrings).flatten
  | FileData.translationEntry e =>
      [e.cache_key, e.created_at] ++ e.translations.map (fun t => t.translated_text)
  | FileData.projectDoc p => projectStrings p
  | FileData.invalid raw => [raw]

/-! ## Theorems -/

theorem serSegs_append_inj (a b : List SubtitleSegment) (x y : List Char)
    (h : serSegs a ++ x = serSegs b ++ y) : a = b ∧ x = y := by
  have ha := parseSegs_serSegs a x
  have hb := parseSegs_serSegs b y
  rw [h, hb] at ha
  have hba : (b, y) = (a, x) := Option.some.inj ha
  exact ⟨(congrArg Prod.fst hba).symm, (congrArg Prod.snd hba).symm⟩

theorem serEnts_append_inj (a b : List GlossaryEntry) (x y : List Char)
    (h : serEnts a ++ x = serEnts b ++ y) : a = b ∧ x = y := by
  have ha := parseEnts_serEnts a x
  have hb := parseEnts_serEnts b y
  rw [h, hb] at ha
  have hba : (b, y) = (a, x) := Option.some.inj ha
  exact ⟨(congrArg Prod.fst hba).symm, (congrArg Prod.snd hba).symm⟩

theorem preimage_segments_inj (s1 s2 : List SubtitleSegment)
    (g : List GlossaryEntry) (l sp : String) (hne : s1 ≠ s2) :
    Cache.generate_translation_cache_key_preimage s1 g l sp ≠
      Cache.generate_translation_cache_key_preimage s2 g l sp := by
  intro heq
  simp only [Cache.generate_translation_cache_key_preimage, List.append_assoc] at heq
  exact hne (serSegs_append_inj s1 s2 _ _ heq).1

theorem preimage_glossary_inj (s : List SubtitleSegment)
    (g1 g2 : List GlossaryEntry) (l sp : String) (hne : g1 ≠ g2) :
    Cache.generate_translation_cache_key_preimage s g1 l sp ≠
      Cache.generate_translation_cache_key_preimage s g2 l sp := by
  intro heq
  simp only [Cache.generate_translation_cache_key_preimage, List.append_assoc] at heq
  have h2 := List.append_cancel_left heq
  exact hne (serEnts_append_inj g1 g2 _ _ h2).1

theorem preimage_language_inj (s : List SubtitleSegment) (g : List GlossaryEntry)
    (l1 l2 sp : String) (hne : l1 ≠ l2) :
    Cache.generate_translation_cache_key_preimage s g l1 sp ≠
      Cache.generate_translation_cache_key_preimage s g l2 sp := by
  intro heq
  simp only [Cache.generate_translation_cache_key_preimage, List.append_assoc] at heq
  have h2 := List.append_cancel_left (List.append_cancel_left heq)
  exact hne (String.ext (List.append_cancel_right h2))

theorem preimage_style_inj (s : List SubtitleSegment) (g : List GlossaryEntry)
    (l sp1 sp2 : String) (hne : sp1 ≠ sp2) :
    Cache.generate_translation_cache_key_preimage s g l sp1 ≠
      Cache.generate_translation_cache_key_preimage s g l sp2 := by
  intro heq
  simp only [Cache.generate_translation_cache_key_preimage, List.append_assoc] at heq
  have h2 := List.append_cancel_left (List.append_cancel_left
    (List.append_cancel_left heq))
  exact hne (String.ext h2)

/-- C7: changing exactly one of the four arguments of
`generate_translation_cache_key` — segments, glossary, target language or
style prompt — while holding the other three fixed changes the byte preimage
fed to the SHA-256 hasher (the digest is the hash of exactly these bytes, so
it changes except on a hash collision); in particular the preimages for the
style prompts "formal" and "casual" always differ. -/
theorem generate_translation_cache_key_preimage_sensitive :
    (∀ s1 s2 g l sp, s1 ≠ s2 →
      Cache.generate_translation_cache_key_preimage s1 g l sp ≠
        Cache.generate_translation_cache_key_preimage s2 g l sp) ∧
    (∀ s g1 g2 l sp, g1 ≠ g2 →
      Cache.generate_translation_cache_key_preimage s g1 l sp ≠
        Cache.generate_translation_cache_key_preimage s g2 l sp) ∧
    (∀ s g l1 l2 sp, l1 ≠ l2 →
      Cache.generate_translation_cache_key_preimage s g l1 sp ≠
        Cache.generate_translation_cache_key_preimage s g l2 sp) ∧
    (∀ s g l sp1 sp2, sp1 ≠ sp2 →
      Cache.generate_translation_cache_key_preimage s g l sp1 ≠
        Cache.generate_translation_cache_key_preimage s g l sp2) ∧
    (∀ s g l,
      Cache.generate_translation_cache_key_preimage s g l "formal" ≠
        Cache.generate_translation_cache_key_preimage s g l "casual") :=
  ⟨fun s1 s2 g l sp => preimage_segments_inj s1 s2 g l sp,
   fun s g1 g2 l sp => preimage_glossary_inj s g1 g2 l sp,
   fun s g l1 l2 sp => preimage_language_inj s g l1 l2 sp,
   fun s g l sp1 sp2 => preimage_style_inj s g l sp1 sp2,
   fun s g l => preimage_style_inj s g l "formal" "casual" (by decide)⟩

/-- C7 witness: the five sensitivity statements at concrete arguments. -/
theorem generate_translation_cache_key_preimage_sensitive_witness :
    (Cache.generate_translation_cache_key_preimage
        [⟨1, 0, 1, 1, "hi", none, none⟩] [] "French" "formal" ≠
      Cache.generate_translation_cache_key_preimage
        [⟨2, 0, 1, 1, "yo", none, none⟩] [] "French" "formal") ∧
    (Cache.generate_translation_cache_key_preimage [] [] "French" "formal" ≠
      Cache.generate_translation_cache_key_preimage
        [] [⟨"g1", "cat", "chat", none, none⟩] "French" "formal") ∧
    (Cache.generate_translation_cache_key_preimage [] [] "French" "formal" ≠
      Cache.generate_translation_cache_key_preimage [] [] "German" "formal") ∧
    (Cache.generate_translation_cache_key_preimage [] [] "French" "x" ≠
      Cache.generate_translation_cache_key_preimage [] [] "French" "y") ∧
    (Cache.generate_translation_cache_key_preimage [] [] "French" "formal" ≠
      Cache.generate_translation_cache_key_preimage [] [] "French" "casual") :=
  ⟨generate_translation_cache_key_preimage_sensitive.1 _ _ [] "French" "formal"
      (by decide),
   generate_translation_cache_key_preimage_sensitive.2.1 [] _ _ "French" "formal"
      (by decide),
   generate_translation_cache_key_preimage_sensitive.2.2.1 [] [] _ _ "formal"
      (by decide),
   generate_translation_cache_key_preimage_sensitive.2.2.2.1 [] [] "French" _ _
      (by decide),
   generate_translation_cache_key_preimage_sensitive.2.2.2.2 [] [] "French"⟩

/-- C3: a successful `set_transcription(d, S)` followed by
`get_transcription(d)` (at any later time) returns `Ok(Some(S))` with the
stored content unchanged — the get is served from the memory index populated
by the set. -/
theorem set_then_get_transcription (st : CacheState) (now now2 : Int)
    (d : String) (S : List SubtitleSegment) :
    (Cache.set_transcription st now true d S).1 = Except.ok () ∧
    (Cache.get_transcription (Cache.set_transcription st now true d S).2 now2 d).1 =
      Except.ok (some S) := by
  constructor
  · rfl
  · simp [Cache.set_transcription, Cache.get_transcription]

/-- C4: `get_transcription` checks the memory index first and serves a memory
hit unchanged with no expiry check; on memory miss it reads the durable file
under the 30-day policy: a missing file is `Ok(None)`, a valid unexpired hit
populates the memory index with the read segments and returns them, and an
expired entry is `Ok(None)` (with the file deleted). -/
theorem get_transcription_tiers :
    (∀ (st : CacheState) (now : Int) (d : String) (S : List SubtitleSegment),
      st.memory d = some S →
      Cache.get_transcription st now d = (Except.ok (some S), st)) ∧
    (∀ (st : CacheState) (now : Int) (d : String),
      st.memory d = none →
      st.disk ("transcribe_" ++ d ++ ".json") = none →
      Cache.get_transcription st now d = (Except.ok none, st)) ∧
    (∀ (st : CacheState) (now : Int) (d : String) (e : TranscriptionCacheEntry)
        (created : Int),
      st.memory d = none →
      st.disk ("transcribe_" ++ d ++ ".json") = some (FileData.transcriptionEntry e) →
      parseRfc3339 e.created_at = some created →
      ¬ numDays (now - created) > 30 →
      Cache.get_transcription st now d =
        (Except.ok (some e.segments),
         { st with memory := fun h =>
             if h = d then some e.segments else st.memory h })) ∧
    (∀ (st : CacheState) (now : Int) (d : String) (e : TranscriptionCacheEntry)
        (created : Int),
      st.memory d = none →
      st.disk ("transcribe_" ++ d ++ ".json") = some (FileData.transcriptionEntry e) →
      parseRfc3339 e.created_at = some created →
      numDays (now - created) > 30 →
      Cache.get_transcription st now d =
        (Except.ok none,
         { st with disk := fun n =>
             if n = "transcribe_" ++ d ++ ".json" then none else st.disk n })) := by
  refine ⟨?_, ?_, ?_, ?_⟩
  · intro st now d S hm
    simp only [Cache.get_transcription, hm]
  · intro st now d hm hd
    simp only [Cache.get_transcription, hm, hd]
  · intro st now d e created hm hd hp hexp
    simp only [Cache.get_transcription, hm, hd, decodeTranscriptionEntry, hp,
      if_neg hexp]
  · intro st now d e created hm hd hp hexp
    simp only [Cache.get_transcription, hm, hd, decodeTranscriptionEntry, hp,
      if_pos hexp]

/-- C5: in `set_transcription` the durable write precedes the memory-index
insertion: a failed write returns the I/O error with the state (memory index
included) unchanged, and after a successful call both the durable envelope
and the memory entry are present — any digest whose memory entry was touched
by the call has its durable file written. -/
theorem set_transcription_write_before_memory :
    (∀ (st : CacheState) (now : Int) (d : String) (S : List SubtitleSegment),
      (Cache.set_transcription st now false d S).1 = Except.error "io error") ∧
    (∀ (st : CacheState) (now : Int) (d : String) (S : List SubtitleSegment),
      (Cache.set_transcription st now false d S).2 = st) ∧
    (∀ (st : CacheState) (now : Int) (d : String) (S : List SubtitleSegment),
      (Cache.set_transcription st now true d S).2.disk ("transcribe_" ++ d ++ ".json")
          = some (FileData.transcriptionEntry ⟨d, S, toRfc3339 now⟩) ∧
      (Cache.set_transcription st now true d S).2.memory d = some S) ∧
    (∀ (st : CacheState) (now : Int) (d : String) (S : List SubtitleSegment)
        (h2 : String),
      (Cache.set_transcription st now true d S).2.memory h2 ≠ st.memory h2 →
      (Cache.set_transcription st now true d S).2.disk ("transcribe_" ++ h2 ++ ".json")
        = some (FileData.transcriptionEntry ⟨d, S, toRfc3339 now⟩)) := by
  refine ⟨fun st now d S => rfl, fun st now d S => rfl, ?_, ?_⟩
  · intro st now d S
    constructor
    · simp [Cache.set_transcription]
    · simp [Cache.set_transcription]
  · intro st now d S h2 hmem
    by_cases heq : h2 = d
    · subst heq
      simp [Cache.set_transcription]
    · exact absurd (by simp [Cache.set_transcription, heq]) hmem

/-- C6: `get_translation` and `set_translation` never read or write the
memory index — the memory component of the state is preserved and the read's
outcome depends only on the disk — and the read applies the 30-day policy to
the durable entry alone. -/
theorem translation_ops_no_memory_tier :
    (∀ (st : CacheState) (now : Int) (k : String),
      (Cache.get_translation st now k).2.memory = st.memory) ∧
    (∀ (st : CacheState) (now : Int) (writeOk : Bool) (k : String)
        (trs : List TranslationResult),
      (Cache.set_translation st now writeOk k trs).2.memory = st.memory) ∧
    (∀ (st st2 : CacheState) (now : Int) (k : String), st2.disk = st.disk →
      (Cache.get_translation st2 now k).1 = (Cache.get_translation st now k).1 ∧
      (Cache.get_translation st2 now k).2.disk =
        (Cache.get_translation st now k).2.disk) ∧
    (∀ (st : CacheState) (now : Int) (k : String) (e : TranslationCacheEntry)
        (created : Int),
      st.disk ("translate_" ++ k ++ ".json") = some (FileData.translationEntry e) →
      parseRfc3339 e.created_at = some created →
      (numDays (now - created) > 30 →
        Cache.get_translation st now k =
          (Except.ok none,
           { st with disk := fun n =>
               if n = "translate_" ++ k ++ ".json" then none else st.disk n })) ∧
      (¬ numDays (now - created) > 30 →
        Cache.get_translation st now k = (Except.ok (some e.translations), st))) := by
  refine ⟨fun st now k => rfl, ?_, ?_, ?_⟩
  · intro st now writeOk k trs
    cases writeOk <;> rfl
  · intro st st2 now k h
    constructor
    · show (Cache.get_translation_core st2.disk now k).1 =
        (Cache.get_translation_core st.disk now k).1
      rw [h]
    · show (Cache.get_translation_core st2.disk now k).2 =
        (Cache.get_translation_core st.disk now k).2
      rw [h]
  · intro st now k e created hd hp
    constructor
    · intro hexp
      simp only [Cache.get_translation, Cache.get_translation_core, hd,
        decodeTranslationEntry, hp, if_pos hexp]
    · intro hexp
      simp only [Cache.get_translation, Cache.get_translation_core, hd,
        decodeTranslationEntry, hp, if_neg hexp]

/-! ### Concrete states used by witnesses and counterexamples -/

def segA : SubtitleSegment := ⟨1, 0, 1, 1, "hi", none, none⟩

def stEmpty : CacheState := { disk := fun _ => none, memory := fun _ => none }

def stMemHit : CacheState :=
  { disk := fun _ => none,
    memory := fun h => if h = "a" then some [segA] else none }

def entFresh : TranscriptionCacheEntry := ⟨"a", [segA], "100"⟩

def stDiskFresh : CacheState :=
  { disk := fun n =>
      if n = "transcribe_a.json" then some (FileData.transcriptionEntry entFresh)
      else none,
    memory := fun _ => none }

def entOld : TranscriptionCacheEntry := ⟨"a", [segA], "0"⟩

def stDiskOld : CacheState :=
  { disk := fun n =>
      if n = "transcribe_a.json" then some (FileData.transcriptionEntry entOld)
      else none,
    memory := fun _ => none }

def trEntOld : TranslationCacheEntry := ⟨"k", [⟨1, "salut"⟩], "0"⟩

def stTrOld : CacheState :=
  { disk := fun n =>
      if n = "translate_k.json" then some (FileData.translationEntry trEntOld)
      else none,
    memory := fun _ => none }

def trEntFresh : TranslationCacheEntry := ⟨"k", [⟨1, "salut"⟩], "100"⟩

def stTrFresh : CacheState :=
  { disk := fun n =>
      if n = "translate_k.json" then some (FileData.translationEntry trEntFresh)
      else none,
    memory := fun _ => none }

def stInvalidTr : CacheState :=
  { disk := fun n =>
      if n = "transcribe_a.json" then some (FileData.invalid "not json") else none,
    memory := fun _ => none }

def entBadStamp : TranscriptionCacheEntry := ⟨"a", [segA], "garbage"⟩

def stBadStamp : CacheState :=
  { disk := fun n =>
      if n = "transcribe_a.json" then some (FileData.transcriptionEntry entBadStamp)
      else none,
    memory := fun _ => none }

def stInvalidTl : CacheState :=
  { disk := fun n =>
      if n = "translate_k.json" then some (FileData.invalid "not json") else none,
    memory := fun _ => none }

def trEntBadStamp : TranslationCacheEntry := ⟨"k", [], "zz"⟩

def stTlBadStamp : CacheState :=
  { disk := fun n =>
      if n = "translate_k.json" then some (FileData.translationEntry trEntBadStamp)
      else none,
    memory := fun _ => none }

def projBadStamp : Project := ⟨"p", "n", "/p", "F", [], [], "0", "zz"⟩

def stPrBadStamp : CacheState :=
  { disk := fun n =>
      if n = "project_p.json" then some (FileData.projectDoc projBadStamp) else none,
    memory := fun _ => none }

def stInvalidPr : CacheState :=
  { disk := fun n =>
      if n = "project_p.json" then some (FileData.invalid "not json") else none,
    memory := fun _ => none }

def projOld : Project := ⟨"p", "proj", "/p", "French", [], [], "0", "0"⟩

def stProjOld : CacheState :=
  { disk := fun n =>
      if n = "project_p.json" then some (FileData.projectDoc projOld) else none,
    memory := fun _ => none }

/-- C1 counterexample: with a durable transcription file whose contents do
not deserialize, `get_transcription` returns the error — not the successful
absent result `Ok(None)` the claim asserts. -/
theorem corrupt_entry_not_read_as_absent :
    (Cache.get_transcription stInvalidTr 0 "a").1 = Except.error "deserialization failed" ∧
    (Cache.get_transcription stInvalidTr 0 "a").1 ≠ Except.ok none :=
  ⟨rfl, fun h => nomatch h⟩

/-- C1 (amended): a durable entry file that exists but fails to deserialize
— or whose stored timestamp fails to parse — makes `get_transcription`,
`get_translation` and `get_project_structure` return the error to the caller
(`Err`), with the state unchanged; the failure is not converted into
`Ok(None)`. -/
theorem read_ops_propagate_deserialize_errors :
    (∀ (st : CacheState) (now : Int) (d : String) (fd : FileData),
      st.memory d = none →
      st.disk ("transcribe_" ++ d ++ ".json") = some fd →
      decodeTranscriptionEntry fd = none →
      Cache.get_transcription st now d = (Except.error "deserialization failed", st)) ∧
    (∀ (st : CacheState) (now : Int) (d : String) (e : TranscriptionCacheEntry),
      st.memory d = none →
      st.disk ("transcribe_" ++ d ++ ".json") = some (FileData.transcriptionEntry e) →
      parseRfc3339 e.created_at = none →
      Cache.get_transcription st now d = (Except.error "timestamp parse failed", st)) ∧
    (∀ (st : CacheState) (now : Int) (k : String) (fd : FileData),
      st.disk ("translate_" ++ k ++ ".json") = some fd →
      decodeTranslationEntry fd = none →
      Cache.get_translation st now k = (Except.error "deserialization failed", st)) ∧
    (∀ (st : CacheState) (now : Int) (k : String) (e : TranslationCacheEntry),
      st.disk ("translate_" ++ k ++ ".json") = some (FileData.translationEntry e) →
      parseRfc3339 e.created_at = none →
      Cache.get_translation st now k = (Except.error "timestamp parse failed", st)) ∧
    (∀ (st : CacheState) (now : Int) (pid : String) (fd : FileData),
      st.disk ("project_" ++ pid ++ ".json") = some fd →
      decodeProject fd = none →
      Cache.get_project_structure st now pid =
        (Except.error "deserialization failed", st)) ∧
    (∀ (st : CacheState) (now : Int) (pid : String) (p : Project),
      st.disk ("project_" ++ pid ++ ".json") = some (FileData.projectDoc p) →
      parseRfc3339 p.updated_at = none →
      Cache.get_project_structure st now pid =
        (Except.error "timestamp parse failed", st)) := by
  refine ⟨?_, ?_, ?_, ?_, ?_, ?_⟩
  · intro st now d fd hm hd hdec
    simp only [Cache.get_transcription, hm, hd, hdec]
  · intro st now d e hm hd hp
    simp only [Cache.get_transcription, hm, hd, decodeTranscriptionEntry, hp]
  · intro st now k fd hd hdec
    simp only [Cache.get_translation, Cache.get_translation_core, hd, hdec]
  · intro st now k e hd hp
    simp only [Cache.get_translation, Cache.get_translation_core, hd,
      decodeTranslationEntry, hp]
  · intro st now pid fd hd hdec
    simp only [Cache.get_project_structure, hd, hdec]
  · intro st now pid p hd hp
    simp only [Cache.get_project_structure, hd, decodeProject, hp]

/-- C1 witness: the six error propagations at concrete states. -/
theorem read_ops_propagate_deserialize_errors_witness :
    Cache.get_transcription stInvalidTr 0 "a"
      = (Except.error "deserialization failed", stInvalidTr) ∧
    Cache.get_transcription stBadStamp 0 "a"
      = (Except.error "timestamp parse failed", stBadStamp) ∧
    Cache.get_translation stInvalidTl 0 "k"
      = (Except.error "deserialization failed", stInvalidTl) ∧
    Cache.get_translation stTlBadStamp 0 "k"
      = (Except.error "timestamp parse failed", stTlBadStamp) ∧
    Cache.get_project_structure stInvalidPr 0 "p"
      = (Except.error "deserialization failed", stInvalidPr) ∧
    Cache.get_project_structure stPrBadStamp 0 "p"
      = (Except.error "timestamp parse failed", stPrBadStamp) :=
  ⟨read_ops_propagate_deserialize_errors.1 stInvalidTr 0 "a" _ rfl rfl rfl,
   read_ops_propagate_deserialize_errors.2.1 stBadStamp 0 "a" _ rfl rfl rfl,
   read_ops_propagate_deserialize_errors.2.2.1 stInvalidTl 0 "k" _ rfl rfl,
   read_ops_propagate_deserialize_errors.2.2.2.1 stTlBadStamp 0 "k" trEntBadStamp rfl rfl,
   read_ops_propagate_deserialize_errors.2.2.2.2.1 stInvalidPr 0 "p" _ rfl rfl,
   read_ops_propagate_deserialize_errors.2.2.2.2.2 stPrBadStamp 0 "p"
     projBadStamp rfl rfl⟩

/-- C2 counterexample: a project snapshot 61 minutes stale is reported
absent, but the durable backing file is NOT removed (the claim asserts
removal for every cache entry kind). -/
theorem expired_snapshot_file_not_removed :
    (Cache.get_project_structure stProjOld 3660 "p").1 = Except.ok none ∧
    (Cache.get_project_structure stProjOld 3660 "p").2.disk "project_p.json"
      = some (FileData.projectDoc projOld) :=
  ⟨rfl, rfl⟩

/-- C2 (amended): an expired durable entry is reported absent on the next
read and re-reading is still absent, not an error; for transcription entries
(when the digest is not in the memory index) and translation entries the
backing file is removed, but for project snapshots the file is left in
place; expiry triggers when the age, truncated to whole days (minutes for
snapshots), strictly exceeds 30 (60). -/
theorem expired_entries_read_as_absent :
    (∀ (st : CacheState) (now : Int) (d : String) (e : TranscriptionCacheEntry)
        (created : Int),
      st.memory d = none →
      st.disk ("transcribe_" ++ d ++ ".json") = some (FileData.transcriptionEntry e) →
      parseRfc3339 e.created_at = some created →
      numDays (now - created) > 30 →
      (Cache.get_transcription st now d).1 = Except.ok none ∧
      (Cache.get_transcription st now d).2.disk ("transcribe_" ++ d ++ ".json") = none ∧
      Cache.get_transcription (Cache.get_transcription st now d).2 now d =
        (Except.ok none, (Cache.get_transcription st now d).2)) ∧
    (∀ (st : CacheState) (now : Int) (k : String) (e : TranslationCacheEntry)
        (created : Int),
      st.disk ("translate_" ++ k ++ ".json") = some (FileData.translationEntry e) →
      parseRfc3339 e.created_at = some created →
      numDays (now - created) > 30 →
      (Cache.get_translation st now k).1 = Except.ok none ∧
      (Cache.get_translation st now k).2.disk ("translate_" ++ k ++ ".json") = none ∧
      Cache.get_translation (Cache.get_translation st now k).2 now k =
        (Except.ok none, (Cache.get_translation st now k).2)) ∧
    (∀ (st : CacheState) (now : Int) (pid : String) (p : Project) (created : Int),
      st.disk ("project_" ++ pid ++ ".json") = some (FileData.projectDoc p) →
      parseRfc3339 p.updated_at = some created →
      numMinutes (now - created) > 60 →
      Cache.get_project_structure st now pid = (Except.ok none, st)) := by
  refine ⟨?_, ?_, ?_⟩
  · intro st now d e created hm hd hp hexp
    have h1 : Cache.get_transcription st now d =
        (Except.ok none,
         { st with disk := fun n =>
             if n = "transcribe_" ++ d ++ ".json" then none else st.disk n }) := by
      simp only [Cache.get_transcription, hm, hd, decodeTranscriptionEntry, hp,
        if_pos hexp]
    refine ⟨by rw [h1], by rw [h1]; simp, ?_⟩
    rw [h1]
    simp only [Cache.get_transcription, hm]
    simp
  · intro st now k e created hd hp hexp
    have h1 : Cache.get_translation st now k =
        (Except.ok none,
         { st with disk := fun n =>
             if n = "translate_" ++ k ++ ".json" then none else st.disk n }) := by
      simp only [Cache.get_translation, Cache.get_translation_core, hd,
        decodeTranslationEntry, hp, if_pos hexp]
    refine ⟨by rw [h1], by rw [h1]; simp, ?_⟩
    rw [h1]
    simp only [Cache.get_translation, Cache.get_translation_core]
    simp
  · intro st now pid p created hd hp hexp
    simp only [Cache.get_project_structure, hd, decodeProject, hp, if_pos hexp]

/-- C2 witness: a transcription entry 31 days old, a translation entry 31
days old and a project snapshot 61 minutes stale, each read at the matching
later time. -/
theorem expired_entries_read_as_absent_witness :
    ((Cache.get_transcription stDiskOld 2678500 "a").1 = Except.ok none ∧
     (Cache.get_transcription stDiskOld 2678500 "a").2.disk
        ("transcribe_" ++ "a" ++ ".json") = none ∧
     Cache.get_transcription (Cache.get_transcription stDiskOld 2678500 "a").2
        2678500 "a" =
       (Except.ok none, (Cache.get_transcription stDiskOld 2678500 "a").2)) ∧
    ((Cache.get_translation stTrOld 2678500 "k").1 = Except.ok none ∧
     (Cache.get_translation stTrOld 2678500 "k").2.disk
        ("translate_" ++ "k" ++ ".json") = none ∧
     Cache.get_translation (Cache.get_translation stTrOld 2678500 "k").2
        2678500 "k" =
       (Except.ok none, (Cache.get_translation stTrOld 2678500 "k").2)) ∧
    Cache.get_project_structure stProjOld 3660 "p" = (Except.ok none, stProjOld) :=
  ⟨expired_entries_read_as_absent.1 stDiskOld 2678500 "a" entOld 0 rfl rfl rfl
      (by decide),
   expired_entries_read_as_absent.2.1 stTrOld 2678500 "k" trEntOld 0 rfl rfl
      (by decide),
   expired_entries_read_as_absent.2.2 stProjOld 3660 "p" projOld 0 rfl rfl
      (by decide)⟩

def projC8 : Project := ⟨"p1", "proj", "/p", "French", [], [], "10", "50"⟩

/-- C8 counterexample: `cache_project_structure` at write time 1000 stores
the bare serialized project; the write-time timestamp string "1000" appears
in none of the stored file's string fields, so the snapshot file carries no
`created_at` recorded at write time. -/
theorem project_snapshot_lacks_write_timestamp :
    (Cache.cache_project_structure stEmpty true "p1" projC8).2.disk "project_p1.json"
      = some (FileData.projectDoc projC8) ∧
    toRfc3339 1000 = "1000" ∧
    "1000" ∉ fileDataStrings (FileData.projectDoc projC8) :=
  ⟨rfl, rfl, by decide⟩

/-- C8 (amended): every durable entry is one file named by its kind's fixed
prefix plus its key; transcription and translation files hold the JSON
envelope `{key, payload, created_at-at-write-time}`, while a project
snapshot file holds the bare serialized project document, whose timestamps
are the project's own `created_at`/`updated_at`, not a write-time record. -/
theorem durable_entry_layout (st : CacheState) (now : Int) (d k pid : String)
    (S : List SubtitleSegment) (T : List TranslationResult) (p : Project) :
    (Cache.set_transcription st now true d S).2.disk ("transcribe_" ++ d ++ ".json")
      = some (FileData.transcriptionEntry ⟨d, S, toRfc3339 now⟩) ∧
    (Cache.set_translation st now true k T).2.disk ("translate_" ++ k ++ ".json")
      = some (FileData.translationEntry ⟨k, T, toRfc3339 now⟩) ∧
    (Cache.cache_project_structure st true pid p).2.disk ("project_" ++ pid ++ ".json")
      = some (FileData.projectDoc p) := by
  refine ⟨?_, ?_, ?_⟩
  · simp [Cache.set_transcription]
  · simp [Cache.set_translation]
  · simp [Cache.cache_project_structure]

theorem updateSegment_id (seg : SubtitleSegment) (u : SegmentUpdates) :
    (updateSegment seg u).id = seg.id := by
  unfold updateSegment
  rcases u.text with _ | t <;> rcases u.translation with _ | tr <;>
    rcases u.start with _ | s <;> rcases u.stop with _ | e <;> rfl

theorem updateSegment_duration (seg : SubtitleSegment) (u : SegmentUpdates)
    (hb : u.start.isSome ∨ u.stop.isSome) :
    (updateSegment seg u).duration =
      (updateSegment seg u).stop - (updateSegment seg u).start := by
  unfold updateSegment
  rcases hs : u.start with _ | s <;> rcases he : u.stop with _ | e
  · rw [hs, he] at hb
    simp at hb
  all_goals simp only [hs, he]

theorem updateFirstSegment_spec (segs : List SubtitleSegment) (sid : Nat)
    (u : SegmentUpdates) (segs2 : List SubtitleSegment)
    (h : updateFirstSegment segs sid u = some segs2)
    (hb : u.start.isSome ∨ u.stop.isSome) :
    ∃ s ∈ segs2, s.id = sid ∧ s.duration = s.stop - s.start := by
  induction segs generalizing segs2 with
  | nil => exact absurd h (by simp [updateFirstSegment])
  | cons s rest ih =>
    unfold updateFirstSegment at h
    by_cases hid : s.id = sid
    · rw [if_pos hid] at h
      obtain rfl : updateSegment s u :: rest = segs2 := Option.some.inj h
      exact ⟨updateSegment s u, by simp,
        by rw [updateSegment_id]; exact hid, updateSegment_duration s u hb⟩
    · rw [if_neg hid] at h
      rcases hrec : updateFirstSegment rest sid u with _ | l2
      · rw [hrec] at h
        exact absurd h (by simp)
      · rw [hrec] at h
        obtain rfl : s :: l2 = segs2 := Option.some.inj (by simpa using h)
        obtain ⟨w, hw, hwid, hwd⟩ := ih l2 hrec
        exact ⟨w, by simp [hw], hwid, hwd⟩

theorem updateFirstFile_spec (files : List ProjectFile) (fid : String) (sid : Nat)
    (u : SegmentUpdates) (nowStr : String) (files2 : List ProjectFile)
    (h : updateFirstFile files fid sid u nowStr = some files2)
    (hb : u.start.isSome ∨ u.stop.isSome) :
    ∃ f ∈ files2, f.id = fid ∧ ∃ segs, f.subtitle_segments = some segs ∧
      ∃ s ∈ segs, s.id = sid ∧ s.duration = s.stop - s.start := by
  induction files generalizing files2 with
  | nil => exact absurd h (by simp [updateFirstFile])
  | cons f rest ih =>
    unfold updateFirstFile at h
    by_cases hid : f.id = fid
    · rw [if_pos hid] at h
      rcases hss : f.subtitle_segments with _ | segs
      · rw [hss] at h
        exact absurd h (by simp)
      · rw [hss] at h
        replace h : Option.map
            (fun segs2 =>
              { f with subtitle_segments := some segs2, updated_at := nowStr } :: rest)
            (updateFirstSegment segs sid u) = some files2 := h
        rcases hrec : updateFirstSegment segs sid u with _ | segs2
        · rw [hrec] at h
          exact absurd h (by simp)
        · rw [hrec] at h
          simp only [Option.map, Option.some.injEq] at h
          subst h
          obtain ⟨w, hw, hwid, hwd⟩ := updateFirstSegment_spec segs sid u segs2 hrec hb
          refine ⟨{ f with subtitle_segments := some segs2, updated_at := nowStr },
            by simp, hid, segs2, rfl, w, hw, hwid, hwd⟩
    · rw [if_neg hid] at h
      rcases hrec : updateFirstFile rest fid sid u nowStr with _ | l2
      · rw [hrec] at h
        exact absurd h (by simp)
      · rw [hrec] at h
        obtain rfl : f :: l2 = files2 := Option.some.inj (by simpa using h)
        obtain ⟨w, hw, rest'⟩ := ih l2 hrec
        exact ⟨w, by simp [hw], rest'⟩

/-- C9: whenever `update_subtitle_segment` changes a segment's start or end
bound, the project it saves holds that segment with
`duration = end - start` (recomputed by the command), and every segment
built by `parse_whisper_response` satisfies `duration = end - start`. -/
theorem duration_recomputed_from_bounds :
    (∀ (project : Project) (fid : String) (sid : Nat) (u : SegmentUpdates)
        (nowStr : String) (saved : Project),
      update_subtitle_segment project fid sid u nowStr = Except.ok saved →
      u.start.isSome ∨ u.stop.isSome →
      ∃ f ∈ saved.files, f.id = fid ∧ ∃ segs, f.subtitle_segments = some segs ∧
        ∃ s ∈ segs, s.id = sid ∧ s.duration = s.stop - s.start) ∧
    (∀ (resp : List WhisperSegment), ∀ s ∈ parse_whisper_response resp,
      s.duration = s.stop - s.start) := by
  constructor
  · intro project fid sid u nowStr saved h hb
    unfold update_subtitle_segment at h
    rcases hrec : updateFirstFile project.files fid sid u nowStr with _ | files2
    · rw [hrec] at h
      exact absurd h (by simp)
    · rw [hrec] at h
      obtain rfl : ({ project with files := files2, updated_at := nowStr } : Project)
          = saved := by
        have := Option.some.inj (rfl : some files2 = some files2)
        cases h
        rfl
      exact updateFirstFile_spec project.files fid sid u nowStr files2 hrec hb
  · intro resp s hs
    unfold parse_whisper_response at hs
    obtain ⟨p, hp, rfl⟩ := List.mem_map.mp hs
    rfl

def projW : Project :=
  ⟨"p", "proj", "/p", "French",
   [⟨"f1", "a.srt", ProjectType.Subtitle, "subtitles/a.srt", none,
     some [⟨1, 0, 2, 2, "hi", none, none⟩], "0", "0"⟩],
   [], "0", "0"⟩

def updW : SegmentUpdates := ⟨none, none, some 1, none⟩

def projWSaved : Project :=
  ⟨"p", "proj", "/p", "French",
   [⟨"f1", "a.srt", ProjectType.Subtitle, "subtitles/a.srt", none,
     some [⟨1, 1, 2, 2 - 1, "hi", none, none⟩], "0", "T"⟩],
   [], "0", "T"⟩

/-- C9 witness: moving the start bound of a concrete segment saves it with
the recomputed duration. -/
theorem duration_recomputed_from_bounds_witness :
    update_subtitle_segment projW "f1" 1 updW "T" = Except.ok projWSaved ∧
    (updW.start.isSome ∨ updW.stop.isSome) ∧
    (∃ f ∈ projWSaved.files, f.id = "f1" ∧ ∃ segs, f.subtitle_segments = some segs ∧
      ∃ s ∈ segs, s.id = 1 ∧ s.duration = s.stop - s.start) :=
  ⟨rfl,
   Or.inl rfl,
   duration_recomputed_from_bounds.1 projW "f1" 1 updW "T" projWSaved rfl
     (Or.inl rfl)⟩

/-- C10: after every successful `update_recent_projects` call the persisted
list has at most 10 entries, its head is the just-opened path with a fresh
`last_opened` timestamp, and no other entry carries that path. -/
theorem update_recent_projects_invariants (stored : RecentDisk)
    (project_path : String) (now : Int) :
    ∃ L, update_recent_projects stored project_path now true = Except.ok L ∧
      L.length ≤ 10 ∧
      L.head? = some ⟨project_path, (fileNameOf project_path).getD "Untitled",
        toRfc3339 now⟩ ∧
      ∀ q ∈ L.tail, q.path ≠ project_path := by
  refine ⟨_, rfl, ?_, ?_, ?_⟩
  · simp [List.length_take]
  · rw [List.take_succ_cons]
    rfl
  · rw [List.take_succ_cons]
    intro q hq
    have hq2 := List.take_subset _ _ hq
    have := List.of_mem_filter hq2
    simpa using this

/-- C4 witness: the four tiers at concrete states — memory hit, durable
miss, fresh durable hit, expired durable entry. -/
theorem get_transcription_tiers_witness :
    Cache.get_transcription stMemHit 999 "a" = (Except.ok (some [segA]), stMemHit) ∧
    Cache.get_transcription stEmpty 0 "a" = (Except.ok none, stEmpty) ∧
    Cache.get_transcription stDiskFresh 200 "a" =
      (Except.ok (some entFresh.segments),
       { stDiskFresh with memory := fun h =>
           if h = "a" then some entFresh.segments else stDiskFresh.memory h }) ∧
    Cache.get_transcription stDiskOld 2678500 "a" =
      (Except.ok none,
       { stDiskOld with disk := fun n =>
           if n = "transcribe_" ++ "a" ++ ".json" then none else stDiskOld.disk n }) :=
  ⟨get_transcription_tiers.1 stMemHit 999 "a" [segA] rfl,
   get_transcription_tiers.2.1 stEmpty 0 "a" rfl rfl,
   get_transcription_tiers.2.2.1 stDiskFresh 200 "a" entFresh 100 rfl rfl rfl
     (by decide),
   get_transcription_tiers.2.2.2 stDiskOld 2678500 "a" entOld 0 rfl rfl rfl
     (by decide)⟩

/-- C5 witness: a failed write at a concrete state returns the I/O error and
leaves the state untouched; a successful write leaves both tiers populated,
and the touched memory digest has its durable file present. -/
theorem set_transcription_write_before_memory_witness :
    (Cache.set_transcription stEmpty 5 false "a" [segA]).1 = Except.error "io error" ∧
    (Cache.set_transcription stEmpty 5 false "a" [segA]).2 = stEmpty ∧
    ((Cache.set_transcription stEmpty 5 true "a" [segA]).2.disk
        ("transcribe_" ++ "a" ++ ".json")
        = some (FileData.transcriptionEntry ⟨"a", [segA], toRfc3339 5⟩) ∧
     (Cache.set_transcription stEmpty 5 true "a" [segA]).2.memory "a" = some [segA]) ∧
    (Cache.set_transcription stEmpty 5 true "a" [segA]).2.disk
        ("transcribe_" ++ "a" ++ ".json")
      = some (FileData.transcriptionEntry ⟨"a", [segA], toRfc3339 5⟩) :=
  ⟨set_transcription_write_before_memory.1 stEmpty 5 "a" [segA],
   set_transcription_write_before_memory.2.1 stEmpty 5 "a" [segA],
   set_transcription_write_before_memory.2.2.1 stEmpty 5 "a" [segA],
   set_transcription_write_before_memory.2.2.2 stEmpty 5 "a" [segA] "a"
     (by decide)⟩

def stTrFresh2 : CacheState :=
  { disk := stTrFresh.disk, memory := fun _ => some [segA] }

/-- C6 witness: at concrete states the translation operations preserve the
memory index, the read ignores the memory contents, and a fresh durable
entry is served under the 30-day policy. -/
theorem translation_ops_no_memory_tier_witness :
    (Cache.get_translation stTrFresh 200 "k").2.memory = stTrFresh.memory ∧
    (Cache.set_translation stTrFresh 200 true "k" [⟨1, "salut"⟩]).2.memory
      = stTrFresh.memory ∧
    ((Cache.get_translation stTrFresh2 200 "k").1 =
        (Cache.get_translation stTrFresh 200 "k").1 ∧
     (Cache.get_translation stTrFresh2 200 "k").2.disk =
        (Cache.get_translation stTrFresh 200 "k").2.disk) ∧
    Cache.get_translation stTrFresh 200 "k" =
      (Except.ok (some trEntFresh.translations), stTrFresh) :=
  ⟨translation_ops_no_memory_tier.1 stTrFresh 200 "k",
   translation_ops_no_memory_tier.2.1 stTrFresh 200 true "k" [⟨1, "salut"⟩],
   translation_ops_no_memory_tier.2.2.1 stTrFresh stTrFresh2 200 "k" rfl,
   (translation_ops_no_memory_tier.2.2.2 stTrFresh 200 "k" trEntFresh 100 rfl
     rfl).2 (by decide)⟩
